import Mathlib

/-!
Verification of the GND (ground-plane) import and validation pipeline of the
Antenna-optimizer repository, a shallow embedding of
`scripts/gnd_importer/{geometry_parser,gnd_validator,gnd_loader}.py`.

Modelling conventions:
* Python floats are idealised as exact rationals `ℚ` (for the validator and
  loader) or as an arbitrary linear ordered field (for the format parsers,
  which the repository runs on IEEE doubles; the DXF circle branch uses
  `math.pi`/`math.cos`/`math.sin`, so the entity processor is parameterised
  by the constant `piV` and functions `cosF`/`sinF`, instantiated with
  `Real.pi`/`Real.cos`/`Real.sin` for the faithful real-valued parser).
* Python lists are Lean lists; Python dicts (which iterate in insertion
  order) are association lists kept in insertion order.
* The f-string error/warning/suggestion messages are modelled by the
  inductive type `Msg`, one constructor per distinct format string, carrying
  the numeric values interpolated into the message.
* Operations that can raise a Python exception (`min`/`max` of an empty
  sequence) return `Except PyExn`; checks are composed in the `Except`
  monad so that "completes without raising" is a provable statement.
-/

set_option linter.unusedVariables false
set_option linter.unusedSectionVars false

namespace GND

/-- Python runtime exceptions that the modelled fragment can raise:
`min()`/`max()` of an empty sequence raises a `ValueError`. -/
inductive PyExn where
  | emptySequence
  deriving DecidableEq, Repr

/-- `min(l)` for a Python list of numbers: raises on an empty list. -/
def pyMin (l : List ℚ) : Except PyExn ℚ :=
  match l with
  | [] => .error .emptySequence
  | x :: xs => .ok (xs.foldl min x)

/-- `max(l)` for a Python list of numbers: raises on an empty list. -/
def pyMax (l : List ℚ) : Except PyExn ℚ :=
  match l with
  | [] => .error .emptySequence
  | x :: xs => .ok (xs.foldl max x)

/-- Total variant of `min` over a list (default `0` on `[]`); used only to
state theorems about nonempty vertex lists, where it agrees with `pyMin`. -/
def listMinD (l : List ℚ) : ℚ :=
  match l with
  | [] => 0
  | x :: xs => xs.foldl min x

/-- Total variant of `max` over a list (default `0` on `[]`). -/
def listMaxD (l : List ℚ) : ℚ :=
  match l with
  | [] => 0
  | x :: xs => xs.foldl max x

/-- Metadata values stored by the parsers (`geometry.metadata` holds strings
and integer counts). -/
inductive MetaVal where
  | str (s : String)
  | nat (n : ℕ)
  deriving DecidableEq, Repr

/-- The `Geometry` container of `geometry_parser.py`: vertex coordinate
triples, edges and faces as lists of vertex indices, and metadata.
Every vertex the repository's parsers append is a 3-element list
`[x, y, z]`, modelled as a triple; edges/faces are lists of indices. -/
structure Geometry (α : Type) where
  vertices : List (α × α × α)
  faces : List (List ℕ)
  edges : List (List ℕ)
  metadata : List (String × MetaVal)
  deriving DecidableEq, Repr

/-- The validator's messages: one constructor per f-string in
`gnd_validator.py`, carrying the interpolated quantities. -/
inductive Msg where
  /-- "Geometry is empty (no vertices found)" -/
  | geometryEmpty
  /-- "Ground plane bounding box is too small (W: {width}mm, H: {height}mm).
  Minimum required: {antenna_size}mm × {antenna_size}mm ..." -/
  | boxTooSmall (width height antenna_size : ℚ)
  /-- "Ground plane cannot accommodate the {antenna_size}mm × {antenna_size}mm
  antenna. Although the bounding box is {width}mm × {height}mm, ..." -/
  | cannotFit (antenna_size width height : ℚ)
  /-- "No edges or faces defined in geometry" -/
  | noEdgesOrFaces
  /-- "Geometry has {n} open boundary vertices. ..." -/
  | openBoundaries (n : ℕ)
  /-- "Geometry has significant Z-axis variation ({z}mm). ..." -/
  | zVariation (z : ℚ)
  /-- "Complex geometry detected. ..." -/
  | complexGeometry
  deriving DecidableEq, Repr

/-- The three message lists a `GNDValidator` instance accumulates
(`self.errors`, `self.warnings`, `self.suggestions`). -/
structure VState where
  errors : List Msg
  warnings : List Msg
  suggestions : List Msg
  deriving DecidableEq, Repr

/-- The dict returned by `GNDValidator.get_report`. -/
structure Report where
  valid : Bool
  errors : List Msg
  warnings : List Msg
  suggestions : List Msg
  deriving DecidableEq, Repr

/-! ### Derived bounding-box values (for stating theorems) -/

/-- The x coordinates `[v[0] for v in vertices]`. -/
def x_coords (g : Geometry ℚ) : List ℚ := g.vertices.map (fun v => v.1)

/-- The y coordinates `[v[1] for v in vertices]`. -/
def y_coords (g : Geometry ℚ) : List ℚ := g.vertices.map (fun v => v.2.1)

/-- `min(x_coords)` (total form, used under a nonemptiness hypothesis). -/
def min_xD (g : Geometry ℚ) : ℚ := listMinD (x_coords g)

/-- `max(x_coords)`. -/
def max_xD (g : Geometry ℚ) : ℚ := listMaxD (x_coords g)

/-- `min(y_coords)`. -/
def min_yD (g : Geometry ℚ) : ℚ := listMinD (y_coords g)

/-- `max(y_coords)`. -/
def max_yD (g : Geometry ℚ) : ℚ := listMaxD (y_coords g)

/-- The bounding-box width `max_x - min_x` of `_check_minimum_size`. -/
def bbox_width (g : Geometry ℚ) : ℚ := max_xD g - min_xD g

/-- The bounding-box height `max_y - min_y` of `_check_minimum_size`. -/
def bbox_height (g : Geometry ℚ) : ℚ := max_yD g - min_yD g

/-- A 30×30 closed square boundary (concrete test geometry). -/
def squareG : Geometry ℚ :=
  ⟨[(0, 0, 0), (30, 0, 0), (30, 30, 0), (0, 30, 0)], [],
   [[0, 1], [1, 2], [2, 3], [3, 0]], []⟩

/-- A 10×10 two-vertex geometry, below the 25-unit minimum. -/
def smallG : Geometry ℚ := ⟨[(0, 0, 0), (10, 10, 0)], [], [[0, 1]], []⟩

/-- The empty geometry. -/
def emptyG : Geometry ℚ := ⟨[], [], [], []⟩

/-- The validation report the empty geometry produces. -/
def emptyReport : Report := ⟨false, [.geometryEmpty], [.noEdgesOrFaces], []⟩

namespace GNDValidator

/-- `_check_empty_geometry`: appends an error when the vertex list is empty. -/
def check_empty_geometry (g : Geometry ℚ) (s : VState) : Except PyExn VState :=
  if g.vertices.isEmpty then
    .ok { s with errors := s.errors ++ [.geometryEmpty] }
  else .ok s

/-- One iteration of the edge loop in `_point_in_polygon`: skips edges that
are shorter than 2 entries or reference out-of-range vertex indices, and
toggles `inside` when the horizontal ray from `(px, py)` crosses the edge. -/
def edge_cross (g : Geometry ℚ) (px py : ℚ) (inside : Bool) (edge : List ℕ) : Bool :=
  match edge with
  | s :: e :: _ =>
    if s ≥ g.vertices.length ∨ e ≥ g.vertices.length then inside
    else
      let v1 := g.vertices.getD s (0, 0, 0)
      let v2 := g.vertices.getD e (0, 0, 0)
      let x1 := v1.1
      let y1 := v1.2.1
      let x2 := v2.1
      let y2 := v2.2.1
      if decide (y1 > py) ≠ decide (y2 > py) then
        let intersect_x := x1 + (x2 - x1) * (py - y1) / (y2 - y1)
        if px < intersect_x then !inside else inside
      else inside
  | _ => inside

/-- `_point_in_polygon`: ray casting; returns `true` when the geometry has
no edges, else the parity toggle over all edges starting from `False`. -/
def point_in_polygon (g : Geometry ℚ) (px py : ℚ) : Bool :=
  if g.edges.isEmpty then true
  else g.edges.foldl (edge_cross g px py) false

/-- The list of values `lo, lo + step, lo + 2·step, …` visited by the Python
loop `v = lo; while v <= hi: …; v += step` (for positive `step`). -/
def grid_vals (lo hi step : ℚ) : List ℚ :=
  if lo ≤ hi ∧ 0 < step then
    (List.range ((⌊(hi - lo) / step⌋).toNat + 1)).map (fun k : ℕ => lo + step * (k : ℚ))
  else []

/-- The five probe points `_test_antenna_fit` tests for a candidate antenna
center `(x, y)`: the center and the four footprint corners. -/
def test_points (x y half_antenna : ℚ) : List (ℚ × ℚ) :=
  [(x, y),
   (x - half_antenna, y - half_antenna),
   (x + half_antenna, y - half_antenna),
   (x - half_antenna, y + half_antenna),
   (x + half_antenna, y + half_antenna)]

/-- `_test_antenna_fit`: 5-unit grid search over candidate centers across
the bounding box inset by half the antenna side; succeeds iff some
candidate has all five probe points inside the polygon. -/
def test_antenna_fit (g : Geometry ℚ) (antenna_size min_x max_x min_y max_y : ℚ) : Bool :=
  let half_antenna := antenna_size / 2
  let step : ℚ := 5
  (grid_vals (min_y + half_antenna) (max_y - half_antenna) step).any fun y =>
    (grid_vals (min_x + half_antenna) (max_x - half_antenna) step).any fun x =>
      (test_points x y half_antenna).all fun p => point_in_polygon g p.1 p.2

/-- `_check_minimum_size`: returns early on an empty vertex list; otherwise
compares the bounding box against the 25mm antenna, and (when the box is
large enough and edges exist) runs the grid-search fit test. -/
def check_minimum_size (g : Geometry ℚ) (s : VState) : Except PyExn VState :=
  if g.vertices.isEmpty then .ok s
  else do
    let x_coords := g.vertices.map (fun v => v.1)
    let y_coords := g.vertices.map (fun v => v.2.1)
    let min_x ← pyMin x_coords
    let max_x ← pyMax x_coords
    let min_y ← pyMin y_coords
    let max_y ← pyMax y_coords
    let width := max_x - min_x
    let height := max_y - min_y
    let antenna_size : ℚ := 25
    if width < antenna_size ∨ height < antenna_size then
      .ok { s with errors := s.errors ++ [.boxTooSmall width height antenna_size] }
    else if !g.edges.isEmpty then
      if test_antenna_fit g antenna_size min_x max_x min_y max_y then .ok s
      else .ok { s with errors := s.errors ++ [.cannotFit antenna_size width height] }
    else .ok s

/-- `_check_planar_geometry`: returns early on an empty vertex list; appends
a suggestion when the Z spread exceeds 5. -/
def check_planar_geometry (g : Geometry ℚ) (s : VState) : Except PyExn VState :=
  if g.vertices.isEmpty then .ok s
  else do
    let z_coords := g.vertices.map (fun v => v.2.2)
    let max_z ← pyMax z_coords
    let min_z ← pyMin z_coords
    let z_variation := max_z - min_z
    if z_variation > 5 then
      .ok { s with suggestions := s.suggestions ++ [.zVariation z_variation] }
    else .ok s

/-- Build the `edge_count` dict of `_check_closed_boundaries` as an
insertion-ordered association list (Python dicts iterate in insertion
order). -/
def bump_count (m : List (ℕ × ℕ)) (k : ℕ) : List (ℕ × ℕ) :=
  match m with
  | [] => [(k, 1)]
  | (k', c) :: rest => if k = k' then (k', c + 1) :: rest else (k', c) :: bump_count rest k

/-- The vertex-touch counts accumulated over all index entries of all edges. -/
def edge_count_map (edges : List (List ℕ)) : List (ℕ × ℕ) :=
  edges.foldl (fun m edge => edge.foldl bump_count m) []

/-- `_check_closed_boundaries`: warning-only connectivity heuristic. -/
def check_closed_boundaries (g : Geometry ℚ) (s : VState) : Except PyExn VState :=
  if g.edges.isEmpty then
    if !g.faces.isEmpty then .ok s
    else .ok { s with warnings := s.warnings ++ [.noEdgesOrFaces] }
  else
    let open_vertices := ((edge_count_map g.edges).filter (fun p => p.2 % 2 ≠ 0)).map (fun p => p.1)
    if !open_vertices.isEmpty ∧ open_vertices.length > 2 then
      .ok { s with warnings := s.warnings ++ [.openBoundaries open_vertices.length] }
    else .ok s

/-- `_check_self_intersections`: suggestion-only complexity heuristic. -/
def check_self_intersections (g : Geometry ℚ) (s : VState) : Except PyExn VState :=
  if g.edges.length > 100 then
    .ok { s with suggestions := s.suggestions ++ [.complexGeometry] }
  else .ok s

/-- The body of `is_valid`: run the five checks in their fixed source order,
threading the accumulated message lists. -/
def run_checks (g : Geometry ℚ) (s : VState) : Except PyExn VState := do
  let s1 ← check_empty_geometry g s
  let s2 ← check_minimum_size g s1
  let s3 ← check_planar_geometry g s2
  let s4 ← check_closed_boundaries g s3
  check_self_intersections g s4

/-- A fresh `GNDValidator(geometry)` has empty message lists. -/
def initState : VState := ⟨[], [], []⟩

/-- `is_valid` on a fresh validator: run all checks, then report whether
the error list is empty. -/
def is_valid (g : Geometry ℚ) : Except PyExn Bool := do
  let s ← run_checks g initState
  pure s.errors.isEmpty

/-- `get_report` on a fresh validator (as the loader uses it): run all
checks via `is_valid` and package the four report fields. -/
def get_report (g : Geometry ℚ) : Except PyExn Report := do
  let s ← run_checks g initState
  pure { valid := s.errors.isEmpty,
         errors := s.errors,
         warnings := s.warnings,
         suggestions := s.suggestions }

/-- Whether the horizontal ray from `(px, py)` crosses this edge — the
toggle condition of one iteration of `_point_in_polygon`'s loop (edges
shorter than two entries or with out-of-range indices never cross). -/
def crossesB (g : Geometry ℚ) (px py : ℚ) (edge : List ℕ) : Bool :=
  match edge with
  | s :: e :: _ =>
    if s ≥ g.vertices.length ∨ e ≥ g.vertices.length then false
    else
      let v1 := g.vertices.getD s (0, 0, 0)
      let v2 := g.vertices.getD e (0, 0, 0)
      if decide (v1.2.1 > py) ≠ decide (v2.2.1 > py) then
        decide (px < v1.1 + (v2.1 - v1.1) * (py - v1.2.1) / (v2.2.1 - v1.2.1))
      else false
  | _ => false

/-- Modelled from the claim's wording: a probe point is inside iff a
horizontal ray cast from it crosses an odd number of the geometry's edges. -/
def spec_inside (g : Geometry ℚ) (px py : ℚ) : Prop :=
  Odd (g.edges.countP (crossesB g px py))

/-- Modelled from the claim's wording: some candidate antenna center on the
5-unit grid across the bounding box inset by half the antenna side
(`25 / 2`) has all five probe points (center plus the four footprint
corners) inside by the odd-crossings test. -/
def spec_fit_exists (g : Geometry ℚ) : Prop :=
  ∃ i j : ℕ,
    min_xD g + 25 / 2 + 5 * (i : ℚ) ≤ max_xD g - 25 / 2 ∧
    min_yD g + 25 / 2 + 5 * (j : ℚ) ≤ max_yD g - 25 / 2 ∧
    ∀ p ∈ test_points (min_xD g + 25 / 2 + 5 * (i : ℚ))
        (min_yD g + 25 / 2 + 5 * (j : ℚ)) (25 / 2),
      spec_inside g p.1 p.2

end GNDValidator

/-- The bounding-box dict computed by `GNDLoader.calculate_bounds`
(`center` is the 3-element list the source builds). -/
structure Bounds where
  min_x : ℚ
  max_x : ℚ
  min_y : ℚ
  max_y : ℚ
  min_z : ℚ
  max_z : ℚ
  width : ℚ
  height : ℚ
  depth : ℚ
  center : List ℚ
  deriving DecidableEq, Repr

namespace GNDLoader

/-- `calculate_bounds`: `None` for an empty vertex list, otherwise the
min/max/extent/center record.  (With a nonempty vertex list, `z_coords` is
nonempty too, so the `if z_coords else 0` guards of the source always take
the truthy branch.) -/
def calculate_bounds (vertices : List (ℚ × ℚ × ℚ)) : Except PyExn (Option Bounds) :=
  if vertices.isEmpty then .ok none
  else do
    let x_coords := vertices.map (fun v => v.1)
    let y_coords := vertices.map (fun v => v.2.1)
    let z_coords := vertices.map (fun v => v.2.2)
    let mnx ← pyMin x_coords
    let mxx ← pyMax x_coords
    let mny ← pyMin y_coords
    let mxy ← pyMax y_coords
    let mnz ← pyMin z_coords
    let mxz ← pyMax z_coords
    .ok (some { min_x := mnx, max_x := mxx, min_y := mny, max_y := mxy,
                min_z := mnz, max_z := mxz,
                width := mxx - mnx, height := mxy - mny, depth := mxz - mnz,
                center := [(mnx + mxx) / 2, (mny + mxy) / 2, (mnz + mxz) / 2] })

/-- The kinds of failure `GNDLoader.load` can hit before the final wrap. -/
inductive LoadErrCore where
  /-- `ValueError(f"Invalid geometry: {', '.join(errors)}")`: carries the
  full list of validation error messages that the source joins. -/
  | invalidGeometry (errors : List Msg)
  /-- A propagated Python exception from the body. -/
  | pyExn (e : PyExn)
  deriving DecidableEq, Repr

/-- The single failure the loader raises: the source's
`except Exception: raise Exception(f"Failed to load GND file: {e}")`
wrapper around the underlying cause. -/
inductive LoadErr where
  | loadFailed (core : LoadErrCore)
  deriving DecidableEq, Repr

/-- The success record `GNDLoader.load` returns. -/
structure LoadResult where
  geometry : Geometry ℚ
  bounds : Option Bounds
  format : String
  vertex_count : ℕ
  face_count : ℕ
  edge_count : ℕ
  validation : Report
  deriving DecidableEq, Repr

/-- `GNDLoader.load` after the parser produced `g`: validate, fail the whole
load when the report is invalid, otherwise compute bounds and assemble the
result.  (`face_count`/`edge_count` use `len(...) if ... else 0`, which
equals the plain length.) -/
def load (g : Geometry ℚ) (format : String) : Except LoadErr LoadResult :=
  match GNDValidator.get_report g with
  | .error e => .error (.loadFailed (.pyExn e))
  | .ok report =>
    if report.valid then
      match calculate_bounds g.vertices with
      | .error e => .error (.loadFailed (.pyExn e))
      | .ok bounds =>
        .ok { geometry := g, bounds := bounds, format := format,
              vertex_count := g.vertices.length,
              face_count := g.faces.length,
              edge_count := g.edges.length,
              validation := report }
    else .error (.loadFailed (.invalidGeometry report.errors))

end GNDLoader

namespace GeometryParser

variable {α : Type} [LinearOrderedField α] [FloorRing α] [DecidableEq α]

/-- The deduplication tolerance `epsilon = 1e-6` of `_parse_dxf`. -/
def epsV : α := 1 / 1000000

/-- Python 3's builtin `round` to an integer: round half to even. -/
def pyRound (q : α) : ℤ :=
  if q - ⌊q⌋ < 1 / 2 then ⌊q⌋
  else if (1 / 2 : α) < q - ⌊q⌋ then ⌊q⌋ + 1
  else if 2 ∣ ⌊q⌋ then ⌊q⌋ else ⌊q⌋ + 1

/-- The dict key built by `add_vertex`:
`(round(x/epsilon)*epsilon, round(y/epsilon)*epsilon, round(z/epsilon)*epsilon)`. -/
def vkey (p : α × α × α) : α × α × α :=
  ((pyRound (p.1 / epsV) : ℤ) * epsV,
   (pyRound (p.2.1 / epsV) : ℤ) * epsV,
   (pyRound (p.2.2 / epsV) : ℤ) * epsV)

/-- The state a parser run accumulates: the growing `Geometry` fields plus
the `vertex_map` dict, kept as an insertion-ordered association list. -/
structure ParseState (α : Type) where
  vertices : List (α × α × α)
  faces : List (List ℕ)
  edges : List (List ℕ)
  vertex_map : List ((α × α × α) × ℕ)

/-- The empty state a parser starts from (`Geometry()` plus `vertex_map = {}`). -/
def init : ParseState α := ⟨[], [], [], []⟩

/-- First-match association-list lookup (Python `key in dict` / `dict[key]`). -/
def findKey : List ((α × α × α) × ℕ) → (α × α × α) → Option ℕ
  | [], _ => none
  | (k, i) :: rest, key => if key = k then some i else findKey rest key

/-- Insert-if-absent: allocate index `len(vertices)` for an unseen key, else
return the existing index.  Both deduplication policies (tolerance-snapped
for DXF, exact-match for STL) are this operation with different keys. -/
def addKeyed (st : ParseState α) (key p : α × α × α) : ParseState α × ℕ :=
  match findKey st.vertex_map key with
  | some i => (st, i)
  | none =>
    ({ st with vertices := st.vertices ++ [p],
               vertex_map := st.vertex_map ++ [(key, st.vertices.length)] },
     st.vertices.length)

/-- `add_vertex(x, y, z)` of `_parse_dxf`: tolerance-snapped deduplication. -/
def add_vertex (st : ParseState α) (x y z : α) : ParseState α × ℕ :=
  addKeyed st (vkey (x, y, z)) (x, y, z)

/-- Run `add_vertex` over a list of points, collecting the indices in order
(the `indices = [add_vertex(...) for p in points]` comprehensions). -/
def add_vertices (st : ParseState α) : List (α × α × α) → ParseState α × List ℕ
  | [] => (st, [])
  | p :: ps =>
    let r1 := add_vertex st p.1 p.2.1 p.2.2
    let r2 := add_vertices r1.1 ps
    (r2.1, r1.2 :: r2.2)

/-- `for i in range(len(indices)-1): edges.append([indices[i], indices[i+1]])`. -/
def consec_edges : List ℕ → List (List ℕ)
  | a :: b :: rest => [a, b] :: consec_edges (b :: rest)
  | _ => []

/-- The DXF modelspace entities `_parse_dxf` recognises (all others are
silently skipped, modelled by `OTHER`).  `LINE`/`POLYLINE`/`FACE3D` carry
points with the `getattr(p, 'z', 0)` default already resolved;
`LWPOLYLINE` points are 2D (`z` forced to `0` by the source). -/
inductive DXFEntity (α : Type) where
  | LINE (p1 p2 : α × α × α)
  | LWPOLYLINE (points : List (α × α)) (closed : Bool)
  | POLYLINE (points : List (α × α × α)) (is_closed : Bool)
  | FACE3D (v0 v1 v2 : α × α × α)
  | CIRCLE (center : α × α × α) (radius : α)
  | OTHER

/-- The `i`-th point of the 32-segment polygon approximating a circle:
angle `(2 * pi * i) / 32`, position `center + radius·(cos, sin)` at the
center's Z height. -/
def circle_point (piV : α) (cosF sinF : α → α) (c : α × α × α) (r : α) (i : ℕ) : α × α × α :=
  (c.1 + r * cosF (2 * piV * (i : α) / 32),
   c.2.1 + r * sinF (2 * piV * (i : α) / 32),
   c.2.2)

/-- The snapped dict keys of the 32 circle polygon points. -/
def circle_keys (piV : α) (cosF sinF : α → α) (c : α × α × α) (r : α) : List (α × α × α) :=
  (List.range 32).map (fun i => vkey (circle_point piV cosF sinF c r i))

/-- One iteration of the `for entity in msp` loop of `_parse_dxf`.
`piV`, `cosF`, `sinF` stand for `math.pi`, `math.cos`, `math.sin`. -/
def processEntity (piV : α) (cosF sinF : α → α) (st : ParseState α) :
    DXFEntity α → ParseState α
  | .LINE p1 p2 =>
    let r1 := add_vertex st p1.1 p1.2.1 p1.2.2
    let r2 := add_vertex r1.1 p2.1 p2.2.1 p2.2.2
    { r2.1 with edges := r2.1.edges ++ [[r1.2, r2.2]] }
  | .LWPOLYLINE points closed =>
    let r := add_vertices st (points.map (fun p => (p.1, p.2, (0 : α))))
    let st1 := { r.1 with edges := r.1.edges ++ consec_edges r.2 }
    match r.2, closed with
    | idx0 :: rest, true =>
      { st1 with edges := st1.edges ++ [[(idx0 :: rest).getLast (by simp), idx0]] }
    | _, _ => st1
  | .POLYLINE points is_closed =>
    let r := add_vertices st points
    let st1 := { r.1 with edges := r.1.edges ++ consec_edges r.2 }
    match r.2, is_closed with
    | idx0 :: rest, true =>
      { st1 with edges := st1.edges ++ [[(idx0 :: rest).getLast (by simp), idx0]] }
    | _, _ => st1
  | .FACE3D v0 v1 v2 =>
    let r0 := add_vertex st v0.1 v0.2.1 v0.2.2
    let r1 := add_vertex r0.1 v1.1 v1.2.1 v1.2.2
    let r2 := add_vertex r1.1 v2.1 v2.2.1 v2.2.2
    { r2.1 with faces := r2.1.faces ++ [[r0.2, r1.2, r2.2]] }
  | .CIRCLE c radius =>
    let r := add_vertices st ((List.range 32).map (circle_point piV cosF sinF c radius))
    { r.1 with
      edges := r.1.edges ++ (List.range 32).map (fun i => [r.2.getD i 0, r.2.getD ((i + 1) % 32) 0]) }
  | .OTHER => st

/-- The final parser state of `_parse_dxf` over a list of entities. -/
def dxf_state (piV : α) (cosF sinF : α → α) (entities : List (DXFEntity α)) : ParseState α :=
  entities.foldl (processEntity piV cosF sinF) init

/-- `_parse_dxf`: fold the entity loop, then attach the metadata
(`layer_count` is the document's layer-table size, a parser input here). -/
def parse_dxf (piV : α) (cosF sinF : α → α) (entities : List (DXFEntity α))
    (layer_count : ℕ) : Geometry α :=
  let st := dxf_state piV cosF sinF entities
  { vertices := st.vertices, faces := st.faces, edges := st.edges,
    metadata := [("units", .str "mm"), ("source", .str "DXF"),
                 ("layer_count", .nat layer_count),
                 ("entity_count", .nat entities.length)] }

/-- The faithful real-valued DXF entity parser the repository runs
(IEEE doubles idealised as reals, `math.pi`/`math.cos`/`math.sin`). -/
noncomputable def parse_dxf_real (entities : List (DXFEntity ℝ)) (layer_count : ℕ) :
    Geometry ℝ :=
  parse_dxf Real.pi Real.cos Real.sin entities layer_count

/-- One STL triangle: its three vertex coordinate triples. -/
def STLTri (α : Type) := (α × α × α) × (α × α × α) × (α × α × α)

/-- The body of the triangle loop in `_parse_stl`: exact-match
deduplication (the raw coordinate tuple is the dict key), one face per
triangle. -/
def processTriangle (st : ParseState α) (t : STLTri α) : ParseState α :=
  let r0 := addKeyed st t.1 t.1
  let r1 := addKeyed r0.1 t.2.1 t.2.1
  let r2 := addKeyed r1.1 t.2.2 t.2.2
  { r2.1 with faces := r2.1.faces ++ [[r0.2, r1.2, r2.2]] }

/-- The final parser state of `_parse_stl` over the mesh triangles. -/
def stl_state (tris : List (STLTri α)) : ParseState α :=
  tris.foldl processTriangle init

/-- `_parse_stl`: fold the triangle loop, then attach the metadata. -/
def parse_stl (tris : List (STLTri α)) : Geometry α :=
  let st := stl_state tris
  { vertices := st.vertices, faces := st.faces, edges := st.edges,
    metadata := [("units", .str "mm"), ("source", .str "STL"),
                 ("triangle_count", .nat tris.length),
                 ("unique_vertices", .nat st.vertices.length)] }

/-- `_parse_vbscript`: no geometry is extracted; the script text is stored
verbatim in metadata, and vertices/edges/faces stay empty. -/
def parse_vbscript (content file_path : String) : Geometry ℚ :=
  { vertices := [], faces := [], edges := [],
    metadata := [("source", .str "HFSS_VBScript"),
                 ("script_content", .str content),
                 ("file_path", .str file_path)] }

/-- The index each point of `pts` resolves to when a parser feeds the
points through `add_vertex` in order, starting from a fresh state. -/
def resolve_points (pts : List (α × α × α)) : List ℕ :=
  (add_vertices init pts).2

/-- First-seen index assignment: the `vertex_map` dict stores the indices
`0, 1, 2, …` in insertion order, one per stored vertex. -/
def IndexInv (st : ParseState α) : Prop :=
  st.vertex_map.map Prod.snd = List.range st.vertices.length

/-- The parser each file extension dispatches to in `GeometryParser.parse`. -/
inductive ParserKind where
  | dxf
  | stl
  | stepFmt
  | vbs
  deriving DecidableEq, Repr

/-- The `ValueError(f"Unsupported format: {format}")` of `parse`. -/
inductive DispatchErr where
  | unsupportedFormat (format : String)
  deriving DecidableEq, Repr

/-- The extension dispatch of `GeometryParser.parse` (the suffix is already
lower-cased by the constructor). -/
def select_format (format : String) : Except DispatchErr ParserKind :=
  if format = ".dxf" then .ok .dxf
  else if format = ".stl" then .ok .stl
  else if format = ".step" ∨ format = ".stp" then .ok .stepFmt
  else if format = ".vbs" then .ok .vbs
  else .error (.unsupportedFormat format)

end GeometryParser



theorem pyMin_of_ne_nil {l : List ℚ} (h : l ≠ []) : pyMin l = .ok (listMinD l) := by
  cases l with
  | nil => exact absurd rfl h
  | cons x xs => rfl

theorem pyMax_of_ne_nil {l : List ℚ} (h : l ≠ []) : pyMax l = .ok (listMaxD l) := by
  cases l with
  | nil => exact absurd rfl h
  | cons x xs => rfl

namespace GNDValidator

/-- Evaluated form of `_check_minimum_size` on a nonempty vertex list. -/
theorem check_minimum_size_eq (g : Geometry ℚ) (s : VState) (hv : g.vertices ≠ []) :
    check_minimum_size g s = .ok (
      if bbox_width g < 25 ∨ bbox_height g < 25 then
        { s with errors := s.errors ++ [.boxTooSmall (bbox_width g) (bbox_height g) 25] }
      else if !g.edges.isEmpty then
        if test_antenna_fit g 25 (min_xD g) (max_xD g) (min_yD g) (max_yD g) then s
        else { s with errors := s.errors ++ [.cannotFit 25 (bbox_width g) (bbox_height g)] }
      else s) := by
  cases hg : g.vertices with
  | nil => exact absurd hg hv
  | cons v vs =>
    simp only [check_minimum_size, hg, List.isEmpty_cons, Bool.false_eq_true, if_false,
      List.map_cons, pyMin, pyMax, bbox_width, bbox_height, min_xD, max_xD, min_yD, max_yD,
      x_coords, y_coords, listMinD, listMaxD]
    simp only [Bind.bind, Except.bind]
    split
    · rfl
    · split
      · split <;> rfl
      · rfl

/-- Membership in `grid_vals` is exactly the set of loop values of
`v = lo; while v <= hi: …; v += step`. -/
theorem mem_grid_vals {lo hi step v : ℚ} (hstep : 0 < step) :
    v ∈ grid_vals lo hi step ↔ ∃ k : ℕ, v = lo + step * (k : ℚ) ∧ v ≤ hi := by
  unfold grid_vals
  by_cases hle : lo ≤ hi
  · rw [if_pos ⟨hle, hstep⟩]
    simp only [List.mem_map, List.mem_range]
    constructor
    · rintro ⟨k, hk, rfl⟩
      refine ⟨k, rfl, ?_⟩
      have h0 : (0 : ℤ) ≤ ⌊(hi - lo) / step⌋ :=
        Int.floor_nonneg.2 (div_nonneg (by linarith) hstep.le)
      have hk3 : (k : ℤ) ≤ ⌊(hi - lo) / step⌋ := by omega
      have hk4 : (k : ℚ) ≤ (hi - lo) / step := by exact_mod_cast Int.le_floor.mp hk3
      rw [le_div_iff₀ hstep] at hk4
      nlinarith [hk4]
    · rintro ⟨k, rfl, hkhi⟩
      have hk4 : (k : ℚ) ≤ (hi - lo) / step := by
        rw [le_div_iff₀ hstep]
        nlinarith [hkhi]
      have hk3 : (k : ℤ) ≤ ⌊(hi - lo) / step⌋ := Int.le_floor.2 (by exact_mod_cast hk4)
      exact ⟨k, by omega, rfl⟩
  · rw [if_neg (by tauto)]
    simp only [List.not_mem_nil, false_iff, not_exists]
    rintro k ⟨rfl, hkhi⟩
    have hpos : (0 : ℚ) ≤ step * (k : ℚ) := by positivity
    have := not_le.mp hle
    linarith

theorem ite_not_eq_xor (P : Prop) [Decidable P] (b : Bool) :
    (if P then !b else b) = xor (decide P) b := by
  by_cases h : P <;> simp [h]

theorem edge_cross_eq (g : Geometry ℚ) (px py : ℚ) (b : Bool) (edge : List ℕ) :
    edge_cross g px py b edge = xor (crossesB g px py edge) b := by
  cases edge with
  | nil => simp [edge_cross, crossesB]
  | cons s t =>
    cases t with
    | nil => simp [edge_cross, crossesB]
    | cons e rest =>
      simp only [edge_cross, crossesB]
      split
      · simp
      · split
        · exact ite_not_eq_xor _ _
        · simp

theorem foldl_edge_cross (g : Geometry ℚ) (px py : ℚ) (es : List (List ℕ)) (b : Bool) :
    es.foldl (edge_cross g px py) b =
      xor (decide (Odd (es.countP (crossesB g px py)))) b := by
  induction es generalizing b with
  | nil => simp [List.countP, List.countP.go, Nat.odd_iff]
  | cons e es ih =>
    rw [List.foldl_cons, ih, edge_cross_eq]
    rcases h : crossesB g px py e with _ | _
    · simp [List.countP_cons, h]
    · have hodd : decide (Odd (es.countP (crossesB g px py) + 1)) =
          !decide (Odd (es.countP (crossesB g px py))) := by
        by_cases h : Odd (es.countP (crossesB g px py)) <;> simp [Nat.odd_add_one, h]
      simp only [List.countP_cons, h, if_pos, hodd]
      generalize decide (Odd (es.countP (crossesB g px py))) = d
      cases d <;> cases b <;> rfl

/-- With at least one edge, `_point_in_polygon` answers `true` exactly when
the horizontal ray from the point crosses an odd number of edges — the
odd/even ray-casting criterion the spec describes. -/
theorem point_in_polygon_iff (g : Geometry ℚ) (px py : ℚ) (he : g.edges ≠ []) :
    point_in_polygon g px py = true ↔ Odd (g.edges.countP (crossesB g px py)) := by
  unfold point_in_polygon
  rw [if_neg (by simpa using he), foldl_edge_cross]
  simp

/-- The grid-search fit test succeeds exactly when some candidate exists in
the sense of the spec's description. -/
theorem test_antenna_fit_iff (g : Geometry ℚ) (he : g.edges ≠ []) :
    test_antenna_fit g 25 (min_xD g) (max_xD g) (min_yD g) (max_yD g) = true ↔
      spec_fit_exists g := by
  unfold test_antenna_fit spec_fit_exists
  simp only [List.any_eq_true, List.all_eq_true]
  constructor
  · rintro ⟨y, hy, x, hx, hall⟩
    obtain ⟨j, rfl, hyhi⟩ := (mem_grid_vals (by norm_num)).1 hy
    obtain ⟨i, rfl, hxhi⟩ := (mem_grid_vals (by norm_num)).1 hx
    exact ⟨i, j, hxhi, hyhi, fun p hp => (point_in_polygon_iff g p.1 p.2 he).1 (hall p hp)⟩
  · rintro ⟨i, j, hx, hy, hall⟩
    exact ⟨_, (mem_grid_vals (by norm_num)).2 ⟨j, rfl, hy⟩,
           _, (mem_grid_vals (by norm_num)).2 ⟨i, rfl, hx⟩,
           fun p hp => (point_in_polygon_iff g p.1 p.2 he).2 (hall p hp)⟩

/-! ### Per-check characterisations (which lists each check can touch) -/

theorem check_empty_geometry_char (g : Geometry ℚ) (s : VState) :
    ∃ s', check_empty_geometry g s = .ok s' ∧
      s'.warnings = s.warnings ∧ s'.suggestions = s.suggestions := by
  unfold check_empty_geometry
  split
  · exact ⟨_, rfl, rfl, rfl⟩
  · exact ⟨s, rfl, rfl, rfl⟩

theorem check_minimum_size_char (g : Geometry ℚ) (s : VState) :
    ∃ s', check_minimum_size g s = .ok s' ∧
      s'.warnings = s.warnings ∧ s'.suggestions = s.suggestions := by
  by_cases hv : g.vertices = []
  · refine ⟨s, ?_, rfl, rfl⟩
    unfold check_minimum_size
    rw [if_pos (by simp [hv])]
  · rw [check_minimum_size_eq g s hv]
    refine ⟨_, rfl, ?_, ?_⟩ <;>
      · split
        · rfl
        · split
          · split <;> rfl
          · rfl

theorem check_planar_geometry_char (g : Geometry ℚ) (s : VState) :
    ∃ s', check_planar_geometry g s = .ok s' ∧
      s'.errors = s.errors ∧ s'.warnings = s.warnings := by
  cases hg : g.vertices with
  | nil =>
    refine ⟨s, ?_, rfl, rfl⟩
    unfold check_planar_geometry
    rw [if_pos (by simp [hg])]
  | cons v vs =>
    unfold check_planar_geometry
    rw [if_neg (by simp [hg])]
    simp only [hg, List.map_cons, pyMin, pyMax, Bind.bind, Except.bind]
    split
    · exact ⟨_, rfl, rfl, rfl⟩
    · exact ⟨s, rfl, rfl, rfl⟩

theorem check_closed_boundaries_char (g : Geometry ℚ) (s : VState) :
    ∃ s', check_closed_boundaries g s = .ok s' ∧
      s'.errors = s.errors ∧ s'.suggestions = s.suggestions := by
  unfold check_closed_boundaries
  split
  · split
    · exact ⟨s, rfl, rfl, rfl⟩
    · exact ⟨_, rfl, rfl, rfl⟩
  · dsimp only
    split
    · exact ⟨_, rfl, rfl, rfl⟩
    · exact ⟨s, rfl, rfl, rfl⟩

theorem check_self_intersections_char (g : Geometry ℚ) (s : VState) :
    ∃ s', check_self_intersections g s = .ok s' ∧
      s'.errors = s.errors ∧ s'.warnings = s.warnings := by
  unfold check_self_intersections
  split
  · exact ⟨_, rfl, rfl, rfl⟩
  · exact ⟨s, rfl, rfl, rfl⟩

theorem check_planar_geometry_errors {g : Geometry ℚ} {s s' : VState}
    (h : check_planar_geometry g s = .ok s') : s'.errors = s.errors := by
  obtain ⟨s'', h2, he, _⟩ := check_planar_geometry_char g s
  rw [h2] at h
  injection h with h
  exact h ▸ he

theorem check_closed_boundaries_errors {g : Geometry ℚ} {s s' : VState}
    (h : check_closed_boundaries g s = .ok s') : s'.errors = s.errors := by
  obtain ⟨s'', h2, he, _⟩ := check_closed_boundaries_char g s
  rw [h2] at h
  injection h with h
  exact h ▸ he

theorem check_self_intersections_errors {g : Geometry ℚ} {s s' : VState}
    (h : check_self_intersections g s = .ok s') : s'.errors = s.errors := by
  obtain ⟨s'', h2, he, _⟩ := check_self_intersections_char g s
  rw [h2] at h
  injection h with h
  exact h ▸ he

end GNDValidator

open GNDValidator in
/-- C1 — Placement feasibility (check 3): when the minimum-size check passes
(bounding-box width and height both at least 25) and the geometry has at
least one edge, `_check_minimum_size` appends no error iff some candidate
center on the 5-unit grid across the inset bounding box has all 5 probe
points (center and the four 25×25 footprint corners) inside by the odd
ray-crossings test; if no candidate passes the sweep, exactly one
feasibility error is appended; with no edges the fit check is skipped and
nothing is appended. -/
theorem claim1_placement_feasibility (g : Geometry ℚ) (s : VState)
    (hv : g.vertices ≠ []) (hw : 25 ≤ bbox_width g) (hh : 25 ≤ bbox_height g) :
    (g.edges ≠ [] →
        (check_minimum_size g s = .ok s ↔ spec_fit_exists g) ∧
        (¬ spec_fit_exists g →
          check_minimum_size g s =
            .ok { s with errors :=
                    s.errors ++ [.cannotFit 25 (bbox_width g) (bbox_height g)] })) ∧
    (g.edges = [] → check_minimum_size g s = .ok s) := by
  have hchar := check_minimum_size_eq g s hv
  rw [if_neg (by push_neg; exact ⟨hw, hh⟩)] at hchar
  constructor
  · intro he
    rw [if_pos (by simpa using he)] at hchar
    by_cases hfit : test_antenna_fit g 25 (min_xD g) (max_xD g) (min_yD g) (max_yD g) = true
    · rw [if_pos hfit] at hchar
      have hsf : spec_fit_exists g := (test_antenna_fit_iff g he).1 hfit
      exact ⟨⟨fun _ => hsf, fun _ => hchar⟩, fun hn => absurd hsf hn⟩
    · rw [if_neg hfit] at hchar
      have hnsf : ¬ spec_fit_exists g := fun hs => hfit ((test_antenna_fit_iff g he).2 hs)
      refine ⟨⟨fun hok => ?_, fun hs => absurd hs hnsf⟩, fun _ => hchar⟩
      rw [hchar] at hok
      injection hok with hok
      have := congrArg (fun st => st.errors.length) hok
      simp at this
  · intro he
    rwa [if_neg (by simp [he])] at hchar

open GNDValidator in
/-- C2 — Validity definition: for every geometry, the report's `valid`
field is true iff its `errors` list is empty, and the planarity,
boundary-closure end complexity checks never append to `errors` — only the
emptiness, minimum-size and placement-feasibility checks can. -/
theorem claim2_validity_definition (g : Geometry ℚ) :
    (∀ r, get_report g = .ok r → (r.valid = true ↔ r.errors = [])) ∧
    (∀ s s', check_planar_geometry g s = .ok s' → s'.errors = s.errors) ∧
    (∀ s s', check_closed_boundaries g s = .ok s' → s'.errors = s.errors) ∧
    (∀ s s', check_self_intersections g s = .ok s' → s'.errors = s.errors) := by
  refine ⟨?_, fun s s' h => check_planar_geometry_errors h,
          fun s s' h => check_closed_boundaries_errors h,
          fun s s' h => check_self_intersections_errors h⟩
  intro r hr
  unfold get_report at hr
  cases hrun : run_checks g initState with
  | error e =>
    rw [hrun] at hr
    simp [Bind.bind, Except.bind] at hr
  | ok s =>
    rw [hrun] at hr
    simp only [Bind.bind, Except.bind, pure, Except.pure] at hr
    injection hr with hr
    subst hr
    simp [List.isEmpty_iff]

open GNDValidator in
/-- C6 — Empty-geometry handling: on an empty vertex list the validator
appends the emptiness error and every remaining check completes without
raising (the whole run returns `.ok` with `valid = false` and exactly the
emptiness error), and `calculate_bounds` returns `None` rather than
failing. -/
theorem claim6_empty_geometry (g : Geometry ℚ) (h : g.vertices = []) :
    (∃ r, get_report g = .ok r ∧ r.valid = false ∧ r.errors = [.geometryEmpty]) ∧
    GNDLoader.calculate_bounds g.vertices = .ok none := by
  constructor
  · have h1 : check_empty_geometry g initState = .ok ⟨[.geometryEmpty], [], []⟩ := by
      unfold check_empty_geometry initState
      rw [if_pos (by simp [h])]
      rfl
    have h2 : check_minimum_size g ⟨[.geometryEmpty], [], []⟩ =
        .ok ⟨[.geometryEmpty], [], []⟩ := by
      unfold check_minimum_size
      rw [if_pos (by simp [h])]
    have h3 : check_planar_geometry g ⟨[.geometryEmpty], [], []⟩ =
        .ok ⟨[.geometryEmpty], [], []⟩ := by
      unfold check_planar_geometry
      rw [if_pos (by simp [h])]
    obtain ⟨s4, h4, he4, _⟩ := check_closed_boundaries_char g ⟨[.geometryEmpty], [], []⟩
    obtain ⟨s5, h5, he5, _⟩ := check_self_intersections_char g s4
    have hrun : run_checks g initState = .ok s5 := by
      simp only [run_checks, Bind.bind, Except.bind, h1, h2, h3, h4, h5]
    have herr : s5.errors = [.geometryEmpty] := by rw [he5, he4]
    refine ⟨⟨s5.errors.isEmpty, s5.errors, s5.warnings, s5.suggestions⟩, ?_, ?_, herr⟩
    · simp only [get_report, Bind.bind, Except.bind, hrun, pure, Except.pure]
    · simp [herr]
  · unfold GNDLoader.calculate_bounds
    rw [if_pos (by simp [h])]

open GNDValidator in
/-- C7 — Idempotence of validation: two validator runs on the same geometry
(each from a fresh `GNDValidator`, as the loader constructs one) produce
identical error, warning and suggestion lists, in the same order. -/
theorem claim7_validation_idempotent (g : Geometry ℚ) (r1 r2 : Report)
    (h1 : get_report g = .ok r1) (h2 : get_report g = .ok r2) :
    r1.errors = r2.errors ∧ r1.warnings = r2.warnings ∧
      r1.suggestions = r2.suggestions := by
  rw [h1] at h2
  injection h2 with h2
  exact ⟨by rw [h2], by rw [h2], by rw [h2]⟩

/-- Evaluated form of `GNDLoader.load` once the validation report is known. -/
theorem load_eq (g : Geometry ℚ) (fmt : String) (r : Report)
    (hr : GNDValidator.get_report g = .ok r) :
    GNDLoader.load g fmt =
      if r.valid then
        match GNDLoader.calculate_bounds g.vertices with
        | .error e => .error (.loadFailed (.pyExn e))
        | .ok bounds =>
          .ok { geometry := g, bounds := bounds, format := fmt,
                vertex_count := g.vertices.length,
                face_count := g.faces.length,
                edge_count := g.edges.length,
                validation := r }
      else .error (.loadFailed (.invalidGeometry r.errors)) := by
  unfold GNDLoader.load
  rw [hr]

/-- C3 — Load failure on invalid geometry: when the validation report is
invalid, `GNDLoader.load` raises a failure carrying the full list of
validation error messages (the strings the source joins) and returns no
result; a successful result — with the geometry, bounds, counts and the
report — is returned only when validation passed. -/
theorem claim3_load_failure (g : Geometry ℚ) (fmt : String) (r : Report)
    (hr : GNDValidator.get_report g = .ok r) :
    (r.valid = false →
        GNDLoader.load g fmt = .error (.loadFailed (.invalidGeometry r.errors))) ∧
    (∀ res, GNDLoader.load g fmt = .ok res →
        r.valid = true ∧ res.validation = r ∧ res.geometry = g ∧ res.format = fmt ∧
        res.vertex_count = g.vertices.length ∧ res.face_count = g.faces.length ∧
        res.edge_count = g.edges.length ∧
        GNDLoader.calculate_bounds g.vertices = .ok res.bounds) := by
  have hload := load_eq g fmt r hr
  constructor
  · intro hfalse
    rw [hload, hfalse]
    simp
  · intro res hres
    rw [hload] at hres
    by_cases hval : r.valid = true
    · rw [hval, if_pos rfl] at hres
      cases hb : GNDLoader.calculate_bounds g.vertices with
      | error e =>
        rw [hb] at hres
        exact absurd hres (by simp)
      | ok b =>
        rw [hb] at hres
        injection hres with hres
        subst hres
        exact ⟨hval, rfl, rfl, rfl, rfl, rfl, rfl, rfl⟩
    · rw [if_neg (by simpa using hval)] at hres
      exact absurd hres (by simp)

/-- C10 — Loading any VBScript file always fails: the dispatcher sends
`.vbs` to the passthrough parser, which returns a geometry with empty
vertices/edges/faces (script text only in metadata); the emptiness check
makes the report invalid, and the loader turns that into a raised load
failure, so no `.vbs` input can produce a successful result. -/
theorem claim10_vbs_never_loads :
    GeometryParser.select_format ".vbs" = .ok .vbs ∧
    ∀ text path fmt : String,
      GNDLoader.load (GeometryParser.parse_vbscript text path) fmt =
        .error (.loadFailed (.invalidGeometry [.geometryEmpty])) := by
  exact ⟨rfl, fun text path fmt => rfl⟩

open GNDValidator in
/-- C5 — Minimum-size check is terminal: on a nonempty geometry whose
bounding-box width or height is below the 25-unit antenna side,
`_check_minimum_size` appends exactly the one size error (carrying the
measured and required dimensions) and returns without running the
grid-search fit test, so no feasibility error can also appear. -/
theorem claim5_minimum_size_terminal (g : Geometry ℚ) (s : VState)
    (hv : g.vertices ≠ []) (hsmall : bbox_width g < 25 ∨ bbox_height g < 25) :
    check_minimum_size g s =
      .ok { s with errors :=
              s.errors ++ [.boxTooSmall (bbox_width g) (bbox_height g) 25] } := by
  have hchar := check_minimum_size_eq g s hv
  rwa [if_pos hsmall] at hchar

namespace GeometryParser

variable {α : Type} [LinearOrderedField α] [FloorRing α] [DecidableEq α]

theorem findKey_append_some {m : List ((α × α × α) × ℕ)} {k : α × α × α} {i : ℕ}
    (h : findKey m k = some i) (m' : List ((α × α × α) × ℕ)) :
    findKey (m ++ m') k = some i := by
  induction m with
  | nil => simp [findKey] at h
  | cons p rest ih =>
    obtain ⟨k', i'⟩ := p
    rw [List.cons_append]
    by_cases hk : k = k'
    · simp only [findKey, if_pos hk] at h ⊢
      exact h
    · simp only [findKey, if_neg hk] at h ⊢
      exact ih h

theorem findKey_append_none {m : List ((α × α × α) × ℕ)} {k : α × α × α}
    (h : findKey m k = none) (m' : List ((α × α × α) × ℕ)) :
    findKey (m ++ m') k = findKey m' k := by
  induction m with
  | nil => rfl
  | cons p rest ih =>
    obtain ⟨k', i'⟩ := p
    rw [List.cons_append]
    by_cases hk : k = k'
    · simp only [findKey, if_pos hk] at h
      cases h
    · simp only [findKey, if_neg hk] at h ⊢
      exact ih h

theorem findKey_mem {m : List ((α × α × α) × ℕ)} {k : α × α × α} {i : ℕ}
    (h : findKey m k = some i) : (k, i) ∈ m := by
  induction m with
  | nil => simp [findKey] at h
  | cons p rest ih =>
    obtain ⟨k', i'⟩ := p
    by_cases hk : k = k'
    · simp only [findKey, if_pos hk] at h
      injection h with h
      subst hk
      subst h
      exact List.mem_cons_self _ _
    · simp only [findKey, if_neg hk] at h
      exact List.mem_cons_of_mem _ (ih h)

theorem snd_nodup_key_eq {m : List ((α × α × α) × ℕ)}
    (hnd : (m.map Prod.snd).Nodup) {k1 k2 : α × α × α} {i : ℕ}
    (h1 : (k1, i) ∈ m) (h2 : (k2, i) ∈ m) : k1 = k2 := by
  induction m with
  | nil => simp at h1
  | cons p rest ih =>
    simp only [List.map_cons, List.nodup_cons] at hnd
    rcases List.mem_cons.1 h1 with h1 | h1 <;> rcases List.mem_cons.1 h2 with h2 | h2
    · exact congrArg Prod.fst (h1.trans h2.symm)
    · exact absurd (List.mem_map.2 ⟨(k2, i), h2, by rw [← h1]⟩) hnd.1
    · exact absurd (List.mem_map.2 ⟨(k1, i), h1, by rw [← h2]⟩) hnd.1
    · exact ih hnd.2 h1 h2

theorem addKeyed_inv {st : ParseState α} (hinv : IndexInv st) (k p : α × α × α) :
    IndexInv (addKeyed st k p).1 := by
  unfold addKeyed
  cases h : findKey st.vertex_map k with
  | some i => exact hinv
  | none =>
    show ({ st with vertices := _, vertex_map := _ } : ParseState α).vertex_map.map
        Prod.snd = _
    simp only [List.map_append, List.map_cons, List.map_nil, List.length_append,
      List.length_cons, List.length_nil]
    rw [hinv]
    rw [show st.vertices.length + (0 + 1) = st.vertices.length + 1 by omega,
      List.range_succ]

theorem addKeyed_findKey_self (st : ParseState α) (k p : α × α × α) :
    findKey (addKeyed st k p).1.vertex_map k = some (addKeyed st k p).2 := by
  unfold addKeyed
  cases h : findKey st.vertex_map k with
  | some i => exact h
  | none =>
    show findKey (st.vertex_map ++ [(k, st.vertices.length)]) k = _
    rw [findKey_append_none h]
    simp [findKey]

theorem addKeyed_mono {st : ParseState α} {k' : α × α × α} {i : ℕ}
    (h : findKey st.vertex_map k' = some i) (k p : α × α × α) :
    findKey (addKeyed st k p).1.vertex_map k' = some i := by
  unfold addKeyed
  cases hf : findKey st.vertex_map k with
  | some j => exact h
  | none => exact findKey_append_some h _

theorem addKeyed_edges (st : ParseState α) (k p : α × α × α) :
    (addKeyed st k p).1.edges = st.edges := by
  unfold addKeyed
  cases hf : findKey st.vertex_map k <;> rfl

theorem addKeyed_faces (st : ParseState α) (k p : α × α × α) :
    (addKeyed st k p).1.faces = st.faces := by
  unfold addKeyed
  cases hf : findKey st.vertex_map k <;> rfl

theorem add_vertices_inv {st : ParseState α} (hinv : IndexInv st)
    (ps : List (α × α × α)) : IndexInv (add_vertices st ps).1 := by
  induction ps generalizing st with
  | nil => exact hinv
  | cons p ps ih => exact ih (addKeyed_inv hinv _ _)

theorem add_vertices_mono {st : ParseState α} {k : α × α × α} {i : ℕ}
    (h : findKey st.vertex_map k = some i) (ps : List (α × α × α)) :
    findKey (add_vertices st ps).1.vertex_map k = some i := by
  induction ps generalizing st with
  | nil => exact h
  | cons p ps ih => exact ih (addKeyed_mono h _ _)

theorem add_vertices_length (st : ParseState α) (ps : List (α × α × α)) :
    (add_vertices st ps).2.length = ps.length := by
  induction ps generalizing st with
  | nil => rfl
  | cons p ps ih => simp [add_vertices, ih]

theorem add_vertices_lookup (st : ParseState α) (ps : List (α × α × α)) :
    ∀ n, n < ps.length →
      findKey (add_vertices st ps).1.vertex_map (vkey (ps.getD n (0, 0, 0))) =
        some ((add_vertices st ps).2.getD n 0) := by
  induction ps generalizing st with
  | nil => intro n hn; simp at hn
  | cons p ps ih =>
    intro n hn
    cases n with
    | zero =>
      show findKey (add_vertices (add_vertex st p.1 p.2.1 p.2.2).1 ps).1.vertex_map
          (vkey p) = some (add_vertex st p.1 p.2.1 p.2.2).2
      exact add_vertices_mono (addKeyed_findKey_self st _ _) ps
    | succ n =>
      show findKey (add_vertices (add_vertex st p.1 p.2.1 p.2.2).1 ps).1.vertex_map
          (vkey (ps.getD n (0, 0, 0))) =
        some ((add_vertices (add_vertex st p.1 p.2.1 p.2.2).1 ps).2.getD n 0)
      exact ih _ n (by simpa using hn)

theorem epsV_pos : (0 : α) < epsV := by
  unfold epsV
  norm_num

/-- Python's `round` never moves a value by more than one half. -/
theorem pyRound_abs_le (q : α) : |q - (pyRound q : ℤ)| ≤ 1 / 2 := by
  have h0 : (⌊q⌋ : α) ≤ q := Int.floor_le q
  have h1 : q < ⌊q⌋ + 1 := Int.lt_floor_add_one q
  unfold pyRound
  split
  · rename_i hlt
    rw [abs_of_nonneg (by linarith)]
    linarith
  · rename_i hge
    split
    · rename_i hgt
      push_cast
      rw [abs_of_nonpos (by linarith)]
      linarith
    · rename_i hngt
      have heq : q - ⌊q⌋ = 1 / 2 := le_antisymm (not_lt.1 hngt) (not_lt.1 hge)
      split
      · rw [abs_of_nonneg (by linarith)]
        linarith
      · push_cast
        rw [abs_of_nonpos (by linarith)]
        linarith

/-- Values more than one apart never round to the same integer. -/
theorem pyRound_ne_of_one_lt {a b : α} (h : 1 < |a - b|) :
    pyRound a ≠ pyRound b := by
  intro heq
  have ha := pyRound_abs_le a
  have hb := pyRound_abs_le b
  rw [heq] at ha
  have : |a - b| ≤ 1 := by
    calc |a - b| = |(a - (pyRound b : ℤ)) + ((pyRound b : ℤ) - b)| := by ring_nf
    _ ≤ |a - (pyRound b : ℤ)| + |(pyRound b : ℤ) - b| := abs_add _ _
    _ ≤ 1 / 2 + 1 / 2 := add_le_add ha (by rwa [abs_sub_comm])
    _ = 1 := by norm_num
  linarith

/-- Coordinates differing by more than `epsilon` on an axis snap to
different keys. -/
theorem pyRound_div_ne {a b : α} (h : epsV < |a - b|) :
    pyRound (a / epsV) ≠ pyRound (b / epsV) := by
  apply pyRound_ne_of_one_lt
  rw [div_sub_div_same, abs_div, abs_of_pos (epsV_pos (α := α)),
    lt_div_iff₀ (epsV_pos (α := α)), one_mul]
  exact h

/-- Key equality is exactly per-axis equality of the snapped integers. -/
theorem vkey_eq_iff (p q : α × α × α) :
    vkey p = vkey q ↔
      (pyRound (p.1 / epsV) = pyRound (q.1 / epsV) ∧
       pyRound (p.2.1 / epsV) = pyRound (q.2.1 / epsV) ∧
       pyRound (p.2.2 / epsV) = pyRound (q.2.2 / epsV)) := by
  unfold vkey
  rw [Prod.mk.injEq, Prod.mk.injEq]
  have hne : (epsV : α) ≠ 0 := ne_of_gt epsV_pos
  constructor
  · rintro ⟨h1, h2, h3⟩
    refine ⟨?_, ?_, ?_⟩ <;>
      [skip; skip; skip] <;>
      first
      | exact_mod_cast mul_right_cancel₀ hne h1
      | exact_mod_cast mul_right_cancel₀ hne h2
      | exact_mod_cast mul_right_cancel₀ hne h3
  · rintro ⟨h1, h2, h3⟩
    rw [h1, h2, h3]
    exact ⟨rfl, rfl, rfl⟩

theorem IndexInv_init : IndexInv (init (α := α)) := by
  simp [IndexInv, init]

/-- C4 (amended) — Tolerance merge: under the DXF `add_vertex` policy, two
input points resolve to the same vertex index iff they snap to the same
key (the same multiple of epsilon per axis after Python rounding), and two
points differing by more than epsilon on some axis always resolve to
different indices. -/
theorem claim4_tolerance_merge {α : Type} [LinearOrderedField α] [FloorRing α]
    [DecidableEq α] (pts : List (α × α × α)) (i j : ℕ)
    (hi : i < pts.length) (hj : j < pts.length) :
    ((resolve_points pts).getD i 0 = (resolve_points pts).getD j 0 ↔
      vkey (pts.getD i (0, 0, 0)) = vkey (pts.getD j (0, 0, 0))) ∧
    (epsV < |(pts.getD i (0, 0, 0)).1 - (pts.getD j (0, 0, 0)).1| ∨
     epsV < |(pts.getD i (0, 0, 0)).2.1 - (pts.getD j (0, 0, 0)).2.1| ∨
     epsV < |(pts.getD i (0, 0, 0)).2.2 - (pts.getD j (0, 0, 0)).2.2| →
      (resolve_points pts).getD i 0 ≠ (resolve_points pts).getD j 0) := by
  have hinv : IndexInv (add_vertices (init (α := α)) pts).1 :=
    add_vertices_inv IndexInv_init pts
  have hli : findKey (add_vertices (init (α := α)) pts).1.vertex_map
      (vkey (pts.getD i (0, 0, 0))) = some ((resolve_points pts).getD i 0) :=
    add_vertices_lookup init pts i hi
  have hlj : findKey (add_vertices (init (α := α)) pts).1.vertex_map
      (vkey (pts.getD j (0, 0, 0))) = some ((resolve_points pts).getD j 0) :=
    add_vertices_lookup init pts j hj
  have hiff : (resolve_points pts).getD i 0 = (resolve_points pts).getD j 0 ↔
      vkey (pts.getD i (0, 0, 0)) = vkey (pts.getD j (0, 0, 0)) := by
    constructor
    · intro heq
      rw [heq] at hli
      exact snd_nodup_key_eq (by rw [hinv]; exact List.nodup_range _)
        (findKey_mem hli) (findKey_mem hlj)
    · intro hkey
      rw [hkey] at hli
      exact Option.some.inj (hli.symm.trans hlj)
  refine ⟨hiff, fun habs heq => ?_⟩
  have hkey := (vkey_eq_iff _ _).1 (hiff.1 heq)
  rcases habs with h | h | h
  · exact pyRound_div_ne h hkey.1
  · exact pyRound_div_ne h hkey.2.1
  · exact pyRound_div_ne h hkey.2.2

/-- C4 counterexample: the points `(0.4e-6, 0, 0)` and `(0.6e-6, 0, 0)`
differ by less than `1e-6` on every axis, yet `add_vertex` resolves them to
the distinct indices 0 and 1 (they straddle a rounding boundary of the
snap grid), refuting the claim that any two points within `1e-6` per axis
merge. -/
theorem claim4_counterexample :
    |(1/2500000 : ℚ) - 3/5000000| < epsV ∧ |(0 : ℚ) - 0| < epsV ∧
    resolve_points (α := ℚ) [(1/2500000, 0, 0), (3/5000000, 0, 0)] = [0, 1] := by
  refine ⟨?_, ?_, ?_⟩
  · unfold epsV
    rw [abs_lt]
    constructor <;> norm_num
  · unfold epsV
    norm_num
  · have hk1 : vkey ((1/2500000 : ℚ), 0, 0) = (0, 0, 0) := by
      unfold vkey pyRound epsV
      norm_num
    have hk2 : vkey ((3/5000000 : ℚ), 0, 0) = (1/1000000, 0, 0) := by
      unfold vkey pyRound epsV
      norm_num
    simp only [resolve_points, add_vertices, add_vertex, addKeyed, init, findKey, hk1, hk2]
    norm_num

/-- Witness for the amended C4 theorem at a concrete input: the points
`(0, 0, 0)` and `(2e-6, 0, 0)` of a two-point parse. -/
theorem claim4_witness :
    ((0 : ℕ) < ([((0 : ℚ), 0, 0), (2/1000000, 0, 0)] : List (ℚ × ℚ × ℚ)).length) ∧
    ((1 : ℕ) < ([((0 : ℚ), 0, 0), (2/1000000, 0, 0)] : List (ℚ × ℚ × ℚ)).length) ∧
    (((resolve_points (α := ℚ) [((0 : ℚ), 0, 0), (2/1000000, 0, 0)]).getD 0 0 =
        (resolve_points (α := ℚ) [((0 : ℚ), 0, 0), (2/1000000, 0, 0)]).getD 1 0 ↔
      vkey (([((0 : ℚ), 0, 0), (2/1000000, 0, 0)] : List (ℚ × ℚ × ℚ)).getD 0 (0, 0, 0)) =
        vkey (([((0 : ℚ), 0, 0), (2/1000000, 0, 0)] : List (ℚ × ℚ × ℚ)).getD 1 (0, 0, 0))) ∧
    (epsV < |(([((0 : ℚ), 0, 0), (2/1000000, 0, 0)] : List (ℚ × ℚ × ℚ)).getD 0 (0, 0, 0)).1 -
              (([((0 : ℚ), 0, 0), (2/1000000, 0, 0)] : List (ℚ × ℚ × ℚ)).getD 1 (0, 0, 0)).1| ∨
     epsV < |(([((0 : ℚ), 0, 0), (2/1000000, 0, 0)] : List (ℚ × ℚ × ℚ)).getD 0 (0, 0, 0)).2.1 -
              (([((0 : ℚ), 0, 0), (2/1000000, 0, 0)] : List (ℚ × ℚ × ℚ)).getD 1 (0, 0, 0)).2.1| ∨
     epsV < |(([((0 : ℚ), 0, 0), (2/1000000, 0, 0)] : List (ℚ × ℚ × ℚ)).getD 0 (0, 0, 0)).2.2 -
              (([((0 : ℚ), 0, 0), (2/1000000, 0, 0)] : List (ℚ × ℚ × ℚ)).getD 1 (0, 0, 0)).2.2| →
      (resolve_points (α := ℚ) [((0 : ℚ), 0, 0), (2/1000000, 0, 0)]).getD 0 0 ≠
        (resolve_points (α := ℚ) [((0 : ℚ), 0, 0), (2/1000000, 0, 0)]).getD 1 0)) :=
  ⟨by simp, by simp,
   claim4_tolerance_merge [((0 : ℚ), 0, 0), (2/1000000, 0, 0)] 0 1 (by simp) (by simp)⟩

theorem IndexInv_of_eq {st st' : ParseState α} (hv : st'.vertices = st.vertices)
    (hm : st'.vertex_map = st.vertex_map) (h : IndexInv st) : IndexInv st' := by
  unfold IndexInv at h ⊢
  rw [hv, hm]
  exact h

theorem processEntity_inv (piV : α) (cosF sinF : α → α) {st : ParseState α}
    (h : IndexInv st) (e : DXFEntity α) :
    IndexInv (processEntity piV cosF sinF st e) := by
  cases e with
  | LINE p1 p2 =>
    simp only [processEntity]
    exact addKeyed_inv (addKeyed_inv h _ _) _ _
  | LWPOLYLINE points closed =>
    simp only [processEntity]
    split <;> exact add_vertices_inv h _
  | POLYLINE points is_closed =>
    simp only [processEntity]
    split <;> exact add_vertices_inv h _
  | FACE3D v0 v1 v2 =>
    simp only [processEntity]
    exact addKeyed_inv (addKeyed_inv (addKeyed_inv h _ _) _ _) _ _
  | CIRCLE c radius =>
    simp only [processEntity]
    generalize (List.range 32).map (circle_point piV cosF sinF c radius) = ps
    exact IndexInv_of_eq rfl rfl (add_vertices_inv h ps)
  | OTHER =>
    simp only [processEntity]
    exact h

theorem dxf_state_inv (piV : α) (cosF sinF : α → α) (es : List (DXFEntity α)) :
    IndexInv (dxf_state piV cosF sinF es) := by
  unfold dxf_state
  suffices h : ∀ st, IndexInv st → IndexInv (es.foldl (processEntity piV cosF sinF) st) from
    h init IndexInv_init
  induction es with
  | nil => exact fun st h => h
  | cons e es ih => exact fun st h => ih _ (processEntity_inv piV cosF sinF h e)

theorem processTriangle_inv {st : ParseState α} (h : IndexInv st) (t : STLTri α) :
    IndexInv (processTriangle st t) :=
  addKeyed_inv (addKeyed_inv (addKeyed_inv h _ _) _ _) _ _

theorem stl_state_inv (tris : List (STLTri α)) : IndexInv (stl_state tris) := by
  unfold stl_state
  suffices h : ∀ st, IndexInv st → IndexInv (tris.foldl processTriangle st) from
    h init IndexInv_init
  induction tris with
  | nil => exact fun st h => h
  | cons t ts ih => exact fun st h => ih _ (processTriangle_inv h t)

/-- C9 — Dedup determinism: parsing the same DXF entity stream or STL
triangle list twice yields identical geometries (the embedded parsers are
deterministic functions of the file's content, with the dedup dict kept in
insertion order as Python dicts are), and vertex indices are assigned
`0, 1, 2, …` in first-seen discovery order: the dedup map of the final
parser state stores exactly the indices `0 .. n-1` in insertion order. -/
theorem claim9_dedup_determinism {α : Type} [LinearOrderedField α] [FloorRing α]
    [DecidableEq α] (piV : α) (cosF sinF : α → α) (entities : List (DXFEntity α))
    (layer_count : ℕ) (tris : List (STLTri α)) :
    parse_dxf piV cosF sinF entities layer_count =
      parse_dxf piV cosF sinF entities layer_count ∧
    parse_stl tris = parse_stl tris ∧
    (dxf_state piV cosF sinF entities).vertex_map.map Prod.snd =
      List.range (dxf_state piV cosF sinF entities).vertices.length ∧
    (stl_state tris).vertex_map.map Prod.snd =
      List.range (stl_state tris).vertices.length :=
  ⟨rfl, rfl, dxf_state_inv piV cosF sinF entities, stl_state_inv tris⟩

theorem range'_getD {s n i : ℕ} (h : i < n) : (List.range' s n).getD i 0 = s + i := by
  simp [List.getD_eq_getElem?_getD, List.getElem?_range', h]

/-- Feeding a list of points with pairwise-distinct, not-yet-seen keys
through `add_vertex` appends them all, in order, with consecutive fresh
indices. -/
theorem add_vertices_fresh (st : ParseState α) (ps : List (α × α × α))
    (hf : ∀ p ∈ ps, findKey st.vertex_map (vkey p) = none)
    (hd : (ps.map vkey).Nodup) :
    (add_vertices st ps).1.vertices = st.vertices ++ ps ∧
    (add_vertices st ps).1.edges = st.edges ∧
    (add_vertices st ps).1.faces = st.faces ∧
    (add_vertices st ps).1.vertex_map =
      st.vertex_map ++ (ps.map vkey).zip (List.range' st.vertices.length ps.length) ∧
    (add_vertices st ps).2 = List.range' st.vertices.length ps.length := by
  induction ps generalizing st with
  | nil => exact ⟨by simp [add_vertices], rfl, rfl, by simp [add_vertices], rfl⟩
  | cons p ps ih =>
    have hfp : findKey st.vertex_map (vkey p) = none := hf p (List.mem_cons_self p ps)
    have hstep : add_vertex st p.1 p.2.1 p.2.2 =
        ({ vertices := st.vertices ++ [p], faces := st.faces, edges := st.edges,
           vertex_map := st.vertex_map ++ [(vkey p, st.vertices.length)] },
         st.vertices.length) := by
      unfold add_vertex addKeyed
      rw [hfp]
    have hf1 : ∀ q ∈ ps,
        findKey (st.vertex_map ++ [(vkey p, st.vertices.length)]) (vkey q) = none := by
      intro q hq
      rw [findKey_append_none (hf q (List.mem_cons_of_mem p hq))]
      have hne : vkey q ≠ vkey p := by
        intro he
        have hmem : vkey p ∈ ps.map vkey := he ▸ List.mem_map_of_mem vkey hq
        exact (List.nodup_cons.1 (by simpa using hd)).1 hmem
      simp [findKey, hne]
    have hd1 : (ps.map vkey).Nodup := (List.nodup_cons.1 (by simpa using hd)).2
    obtain ⟨hv, he, hfa, hm, hi⟩ :=
      ih { vertices := st.vertices ++ [p], faces := st.faces, edges := st.edges,
           vertex_map := st.vertex_map ++ [(vkey p, st.vertices.length)] } hf1 hd1
    have hunf : add_vertices st (p :: ps) =
        ((add_vertices
            { vertices := st.vertices ++ [p], faces := st.faces, edges := st.edges,
              vertex_map := st.vertex_map ++ [(vkey p, st.vertices.length)] } ps).1,
         st.vertices.length ::
           (add_vertices
              { vertices := st.vertices ++ [p], faces := st.faces, edges := st.edges,
                vertex_map := st.vertex_map ++ [(vkey p, st.vertices.length)] } ps).2) := by
      simp only [add_vertices, hstep]
    rw [hunf]
    refine ⟨?_, ?_, ?_, ?_, ?_⟩
    · rw [hv]
      simp
    · rw [he]
    · rw [hfa]
    · rw [hm]
      simp [List.range', List.append_assoc]
    · rw [hi]
      simp [List.range']

/-- C8 (amended) — Circle mapping: for a CIRCLE entity whose 32 polygon
positions (at angles `2·pi·i/32` around the center, at the center's Z
height) snap to pairwise-distinct keys not already in the dedup map, the
parser appends exactly those 32 vertices in angle order and connects them
into a closed loop of exactly 32 edges (`i → (i+1) mod 32`). -/
theorem claim8_circle_mapping {α : Type} [LinearOrderedField α] [FloorRing α]
    [DecidableEq α] (piV : α) (cosF sinF : α → α) (st : ParseState α)
    (c : α × α × α) (r : α)
    (hfresh : ∀ k ∈ circle_keys piV cosF sinF c r, findKey st.vertex_map k = none)
    (hdistinct : (circle_keys piV cosF sinF c r).Nodup) :
    (processEntity piV cosF sinF st (.CIRCLE c r)).vertices =
      st.vertices ++ (List.range 32).map (circle_point piV cosF sinF c r) ∧
    (processEntity piV cosF sinF st (.CIRCLE c r)).edges =
      st.edges ++ (List.range 32).map
        (fun i => [st.vertices.length + i, st.vertices.length + (i + 1) % 32]) ∧
    (processEntity piV cosF sinF st (.CIRCLE c r)).faces = st.faces := by
  have hkeys : ((List.range 32).map (circle_point piV cosF sinF c r)).map vkey =
      circle_keys piV cosF sinF c r := by
    rw [List.map_map]
    rfl
  have hf : ∀ p ∈ (List.range 32).map (circle_point piV cosF sinF c r),
      findKey st.vertex_map (vkey p) = none := by
    intro p hp
    exact hfresh _ (hkeys ▸ List.mem_map_of_mem vkey hp)
  have hd : (((List.range 32).map (circle_point piV cosF sinF c r)).map vkey).Nodup := by
    rw [hkeys]
    exact hdistinct
  simp only [processEntity]
  generalize hps : (List.range 32).map (circle_point piV cosF sinF c r) = ps at hf hd ⊢
  obtain ⟨hv, he, hfa, hm, hi⟩ := add_vertices_fresh st ps hf hd
  have hlen : ps.length = 32 := by
    rw [← hps]
    simp
  refine ⟨hv, ?_, hfa⟩
  rw [he, hi, hlen]
  congr 1

theorem circle_point_radius_zero (piV : α) (cosF sinF : α → α) (c : α × α × α)
    (i : ℕ) : circle_point piV cosF sinF c 0 i = c := by
  unfold circle_point
  simp

theorem add_vertices_cons (st : ParseState α) (p : α × α × α) (ps : List (α × α × α)) :
    add_vertices st (p :: ps) =
      ((add_vertices (add_vertex st p.1 p.2.1 p.2.2).1 ps).1,
       (add_vertex st p.1 p.2.1 p.2.2).2 ::
         (add_vertices (add_vertex st p.1 p.2.1 p.2.2).1 ps).2) := rfl

theorem add_vertices_const_hit (st : ParseState α) (c : α × α × α) (i n : ℕ)
    (h : findKey st.vertex_map (vkey c) = some i) :
    add_vertices st (List.replicate n c) = (st, List.replicate n i) := by
  induction n with
  | zero => rfl
  | succ n ih =>
    have hstep : add_vertex st c.1 c.2.1 c.2.2 = (st, i) := by
      unfold add_vertex addKeyed
      rw [h]
    simp only [List.replicate_succ, add_vertices, hstep, ih]

/-- A radius-0 CIRCLE produces 32 identical polygon points, so after
deduplication only one vertex is stored, with 32 degenerate loop edges. -/
theorem processEntity_circle_zero (piV : α) (cosF sinF : α → α) (c : α × α × α) :
    (processEntity piV cosF sinF init (.CIRCLE c 0)).vertices = [c] ∧
    (processEntity piV cosF sinF init (.CIRCLE c 0)).edges = List.replicate 32 [0, 0] := by
  have hpts : (List.range 32).map (circle_point piV cosF sinF c 0) =
      List.replicate 32 c := by
    rw [List.map_congr_left (fun i _ => circle_point_radius_zero piV cosF sinF c i)]
    simp
  have hstep1 : add_vertex (init (α := α)) c.1 c.2.1 c.2.2 =
      (⟨[c], [], [], [(vkey c, 0)]⟩, 0) := by
    unfold add_vertex addKeyed init findKey
    rfl
  have hhit : findKey ([(vkey c, 0)] : List ((α × α × α) × ℕ)) (vkey c) = some 0 := by
    simp [findKey]
  have hrest := add_vertices_const_hit (⟨[c], [], [], [(vkey c, 0)]⟩ : ParseState α)
    c 0 31 hhit
  have h32 : List.replicate 32 c = c :: List.replicate 31 c := rfl
  have hadd : add_vertices (init (α := α)) (List.replicate 32 c) =
      ((⟨[c], [], [], [(vkey c, 0)]⟩ : ParseState α), 0 :: List.replicate 31 0) := by
    rw [h32, add_vertices_cons, hstep1]
    dsimp only
    rw [hrest]
  simp only [processEntity, hpts, hadd]
  exact ⟨by trivial, by trivial⟩

/-- C8 counterexample: parsing a single radius-0 CIRCLE centered at the
origin (the faithful real-valued parser) yields one vertex, not 32: the 32
polygon points coincide and deduplicate to a single index, while the 32
loop edges are still emitted.  The claim "for every CIRCLE entity the
parser adds 32 vertices" is therefore false on the code. -/
theorem claim8_counterexample :
    (parse_dxf_real [.CIRCLE ((0 : ℝ), 0, 0) 0] 0).vertices = [((0 : ℝ), 0, 0)] ∧
    (parse_dxf_real [.CIRCLE ((0 : ℝ), 0, 0) 0] 0).edges.length = 32 ∧
    (parse_dxf_real [.CIRCLE ((0 : ℝ), 0, 0) 0] 0).vertices.length ≠ 32 := by
  obtain ⟨hv, he⟩ :=
    processEntity_circle_zero (α := ℝ) Real.pi Real.cos Real.sin ((0 : ℝ), 0, 0)
  refine ⟨?_, ?_, ?_⟩
  · show (processEntity Real.pi Real.cos Real.sin init
        (.CIRCLE ((0 : ℝ), 0, 0) 0)).vertices = [((0 : ℝ), 0, 0)]
    exact hv
  · show (processEntity Real.pi Real.cos Real.sin init
        (.CIRCLE ((0 : ℝ), 0, 0) 0)).edges.length = 32
    rw [he]
    simp
  · show (processEntity Real.pi Real.cos Real.sin init
        (.CIRCLE ((0 : ℝ), 0, 0) 0)).vertices.length ≠ 32
    rw [hv]
    simp

/-- Witness for the amended C8 theorem at a concrete instantiation of the
entity processor where the 32 snapped positions are pairwise distinct and
the dedup map starts empty. -/
theorem claim8_witness :
    (circle_keys (16 : ℚ) id (fun _ => (0 : ℚ)) ((0 : ℚ), 0, 0) 1).Nodup ∧
    ((processEntity (16 : ℚ) id (fun _ => (0 : ℚ)) (init (α := ℚ))
        (.CIRCLE ((0 : ℚ), 0, 0) 1)).vertices =
      (init (α := ℚ)).vertices ++
        (List.range 32).map (circle_point (16 : ℚ) id (fun _ => (0 : ℚ)) ((0 : ℚ), 0, 0) 1) ∧
     (processEntity (16 : ℚ) id (fun _ => (0 : ℚ)) (init (α := ℚ))
        (.CIRCLE ((0 : ℚ), 0, 0) 1)).edges =
      (init (α := ℚ)).edges ++ (List.range 32).map
        (fun i => [(init (α := ℚ)).vertices.length + i,
                   (init (α := ℚ)).vertices.length + (i + 1) % 32]) ∧
     (processEntity (16 : ℚ) id (fun _ => (0 : ℚ)) (init (α := ℚ))
        (.CIRCLE ((0 : ℚ), 0, 0) 1)).faces = (init (α := ℚ)).faces) := by
  have hcp : ∀ i : ℕ, circle_point (16 : ℚ) id (fun _ => (0 : ℚ)) ((0 : ℚ), 0, 0) 1 i =
      ((i : ℚ), 0, 0) := by
    intro i
    unfold circle_point
    have h1 : (0 : ℚ) + 1 * id (2 * 16 * (i : ℚ) / 32) = (i : ℚ) := by
      simp only [id]
      ring
    rw [h1]
    norm_num
  have hpr : ∀ i : ℕ, pyRound ((i : ℚ) / epsV) = (i : ℤ) * 1000000 := by
    intro i
    have h1 : (i : ℚ) / epsV = (((i : ℤ) * 1000000 : ℤ) : ℚ) := by
      unfold epsV
      push_cast
      ring
    rw [h1]
    unfold pyRound
    rw [Int.floor_intCast]
    simp
  have hz : pyRound ((0 : ℚ) / epsV) = 0 := by
    have h0 : (0 : ℚ) / epsV = ((0 : ℤ) : ℚ) := by simp
    rw [h0]
    unfold pyRound
    rw [Int.floor_intCast]
    simp
  have hvk : ∀ i : ℕ, vkey ((i : ℚ), 0, 0) = ((i : ℚ), 0, 0) := by
    intro i
    unfold vkey
    dsimp only
    rw [hpr i, hz]
    unfold epsV
    push_cast
    simp only [Prod.mk.injEq]
    exact ⟨by ring, by norm_num, by norm_num⟩
  have hck : circle_keys (16 : ℚ) id (fun _ => (0 : ℚ)) ((0 : ℚ), 0, 0) 1 =
      (List.range 32).map (fun i : ℕ => ((i : ℚ), 0, 0)) := by
    unfold circle_keys
    apply List.map_congr_left
    intro i _
    rw [hcp i, hvk i]
  have hnd : (circle_keys (16 : ℚ) id (fun _ => (0 : ℚ)) ((0 : ℚ), 0, 0) 1).Nodup := by
    rw [hck]
    refine List.Nodup.map ?_ (List.nodup_range 32)
    intro a b hab
    simpa using hab
  exact ⟨hnd, claim8_circle_mapping (16 : ℚ) id (fun _ => (0 : ℚ)) init ((0 : ℚ), 0, 0) 1
    (fun k hk => rfl) hnd⟩

end GeometryParser

open GNDValidator in
/-- Witness for C1 at the 30×30 closed square boundary. -/
theorem claim1_witness :
    (squareG.vertices ≠ [] ∧ 25 ≤ bbox_width squareG ∧ 25 ≤ bbox_height squareG) ∧
    ((squareG.edges ≠ [] →
        (check_minimum_size squareG initState = .ok initState ↔ spec_fit_exists squareG) ∧
        (¬ spec_fit_exists squareG →
          check_minimum_size squareG initState =
            .ok { initState with errors := initState.errors ++
                    [.cannotFit 25 (bbox_width squareG) (bbox_height squareG)] })) ∧
     (squareG.edges = [] → check_minimum_size squareG initState = .ok initState)) := by
  have h1 : squareG.vertices ≠ [] := by simp [squareG]
  have h2 : (25 : ℚ) ≤ bbox_width squareG := by
    simp [squareG, bbox_width, max_xD, min_xD, x_coords, listMaxD, listMinD,
      List.foldl, max_def, min_def]
    norm_num
  have h3 : (25 : ℚ) ≤ bbox_height squareG := by
    simp [squareG, bbox_height, max_yD, min_yD, y_coords, listMaxD, listMinD,
      List.foldl, max_def, min_def]
    norm_num
  exact ⟨⟨h1, h2, h3⟩, claim1_placement_feasibility squareG initState h1 h2 h3⟩

open GNDValidator in
/-- Witness for C2 at the empty geometry. -/
theorem claim2_witness :
    get_report emptyG = .ok emptyReport ∧
    (emptyReport.valid = true ↔ emptyReport.errors = []) :=
  ⟨rfl, (claim2_validity_definition emptyG).1 emptyReport rfl⟩

/-- Witness for C3 at the empty geometry (whose report is invalid). -/
theorem claim3_witness :
    GNDValidator.get_report emptyG = .ok emptyReport ∧
    ((emptyReport.valid = false →
        GNDLoader.load emptyG ".dxf" =
          .error (.loadFailed (.invalidGeometry emptyReport.errors))) ∧
     (∀ res, GNDLoader.load emptyG ".dxf" = .ok res →
        emptyReport.valid = true ∧ res.validation = emptyReport ∧ res.geometry = emptyG ∧
        res.format = ".dxf" ∧ res.vertex_count = emptyG.vertices.length ∧
        res.face_count = emptyG.faces.length ∧ res.edge_count = emptyG.edges.length ∧
        GNDLoader.calculate_bounds emptyG.vertices = .ok res.bounds)) :=
  ⟨rfl, claim3_load_failure emptyG ".dxf" emptyReport rfl⟩

open GNDValidator in
/-- Witness for C5 at the 10×10 geometry. -/
theorem claim5_witness :
    (smallG.vertices ≠ [] ∧ (bbox_width smallG < 25 ∨ bbox_height smallG < 25)) ∧
    check_minimum_size smallG initState =
      .ok { initState with errors := initState.errors ++
              [.boxTooSmall (bbox_width smallG) (bbox_height smallG) 25] } := by
  have h1 : smallG.vertices ≠ [] := by simp [smallG]
  have h2 : bbox_width smallG < 25 ∨ bbox_height smallG < 25 := by
    left
    simp [smallG, bbox_width, max_xD, min_xD, x_coords, listMaxD, listMinD,
      List.foldl, max_def, min_def]
    norm_num
  exact ⟨⟨h1, h2⟩, claim5_minimum_size_terminal smallG initState h1 h2⟩

/-- Witness for C6 at the empty geometry. -/
theorem claim6_witness :
    emptyG.vertices = [] ∧
    ((∃ r, GNDValidator.get_report emptyG = .ok r ∧ r.valid = false ∧
        r.errors = [.geometryEmpty]) ∧
     GNDLoader.calculate_bounds emptyG.vertices = .ok none) :=
  ⟨rfl, claim6_empty_geometry emptyG rfl⟩

/-- Witness for C7 at the empty geometry. -/
theorem claim7_witness :
    GNDValidator.get_report emptyG = .ok emptyReport ∧
    (emptyReport.errors = emptyReport.errors ∧
     emptyReport.warnings = emptyReport.warnings ∧
     emptyReport.suggestions = emptyReport.suggestions) :=
  ⟨rfl, claim7_validation_idempotent emptyG emptyReport emptyReport rfl rfl⟩

end GND
